import Mathlib

/-!
Verification of the study-tracking and analytics subsystem of the
lang-portal Go backend (repositories, aggregation service, session/review
service, reset handlers).

The Go code is shallowly embedded: each Go function that a claim refers to
is translated into an executable Lean definition over explicit state
(`Store`), with machine integers modelled by `Nat`/`Int` and Go `error`
returns modelled by `Option`/`Except`. Timestamps (`time.Time`) are
modelled as integer seconds; the Go code compares day differences with
`d.Hours()/24 <= 1` on `float64`, which at whole-second inputs of the
magnitudes used here agrees exactly with the rational comparison
`seconds <= 86400` used below.
-/

set_option autoImplicit false
set_option maxRecDepth 8000

namespace LangPortal

/-! ### Data model (internal/models) -/

/-- Row of the `words` table (models.Word, internal/models/word.go). -/
structure Word where
  id : Nat
  japanese : String
  romaji : String
  english : String
  parts : List String
deriving Repr, DecidableEq

/-- Row of the `groups` table (models.Group). -/
structure Group where
  id : Nat
  name : String
deriving Repr, DecidableEq

/-- Row of the `word_groups` join table (repository.WordGroup). -/
structure WordGroup where
  wordId : Nat
  groupId : Nat
deriving Repr, DecidableEq

/-- Row of the `study_sessions` table (models.StudySession,
internal/models/study.go). `createdAt` is in seconds. -/
structure StudySession where
  id : Nat
  groupId : Nat
  studyActivityId : Nat
  createdAt : Int
deriving Repr, DecidableEq

/-- Row of the `word_review_items` table (models.WordReview,
internal/models/study.go). -/
structure WordReview where
  id : Nat
  wordId : Nat
  studySessionId : Nat
  correct : Bool
  createdAt : Int
deriving Repr, DecidableEq

/-- The relational store: one list of rows per table touched by the
claims (the `study_activities` table is not touched by any of them). -/
structure Store where
  words : List Word
  groups : List Group
  wordGroups : List WordGroup
  sessions : List StudySession
  reviews : List WordReview
deriving Repr, DecidableEq

/-! ### GetStudyStreak (magefile.go lines 543-578)

The repository fetches all study sessions ordered by `created_at DESC`;
the embedding takes that descending list of timestamps directly, plus the
current time `now` (the Go code reads `time.Now()`). -/

/-- One day, in seconds; `daysDiff <= 1` in the Go code is
`lastStudyDate - currentDate <= 86400` seconds here. -/
def secondsPerDay : Int := 86400

/-- The `for i := 1; i < len(sessions); i++` walk of `GetStudyStreak`:
state is (`lastStudyDate`, `currentStreak`); each session within one day
of `lastStudyDate` increments the streak and advances `lastStudyDate`;
the first larger gap stops the walk (`break`). -/
def streakWalk : Int → Nat → List Int → Int × Nat
  | lastStudyDate, currentStreak, [] => (lastStudyDate, currentStreak)
  | lastStudyDate, currentStreak, currentDate :: rest =>
    if lastStudyDate - currentDate ≤ secondsPerDay then
      streakWalk currentDate (currentStreak + 1) rest
    else
      (lastStudyDate, currentStreak)

/-- StudyRepository.GetStudyStreak (magefile.go 543-578): on an empty
history the streak is 0; otherwise seed the streak at 1 on the most
recent session, run the walk, and finally zero the streak when
`now - lastStudyDate` exceeds one day, where `lastStudyDate` is the
value of that variable AFTER the walk (the oldest counted session), as
in the Go code. -/
def GetStudyStreak (sessionsDesc : List Int) (now : Int) : Nat :=
  match sessionsDesc with
  | [] => 0
  | t0 :: rest =>
    let w := streakWalk t0 1 rest
    if secondsPerDay < now - w.1 then 0 else w.2

end LangPortal

namespace LangPortal

/-- Claim C1: for one session on each of the days D, D-1, D-2 with
now = D, the spec says the streak is 3 (and stays 3 when a fourth
session on D-4 is added), and 0 on an empty history. The code returns 0
for the three-day history, because its final today-or-yesterday check
uses the walked `lastStudyDate` (here D-2, two days old) instead of the
most recent session: the streak collapses to 0. The empty-history case
does return 0. -/
theorem GetStudyStreak_three_consecutive_days :
    GetStudyStreak [] 0 = 0 ∧
    GetStudyStreak [0, -86400, -172800] 0 = 0 ∧
    GetStudyStreak [0, -86400, -172800, -345600] 0 = 0 ∧
    GetStudyStreak [0, -86400, -172800] 0 ≠ 3 := by
  refine ⟨rfl, by decide, by decide, by decide⟩

/-- Claim C2: the spec says the result is 0 exactly when the most recent
session is more than 1 day in the past. Counterexample in the code:
sessions 12h and 36h ago, now = 0. The most recent session is within one
day of now, yet after the walk `lastStudyDate` is the 36h-old session,
`daysSinceLastStudy = 1.5 > 1`, and the streak collapses to 0. -/
theorem GetStudyStreak_recent_session_still_zero :
    0 - (-43200 : Int) ≤ secondsPerDay ∧
    GetStudyStreak [-43200, -129600] 0 = 0 := by
  refine ⟨by decide, by decide⟩

/-- Claim C8: the spec says k sessions on the same calendar day yield a
streak of 1, not k. In the code every same-day tie has `daysDiff = 0 <= 1`
and increments the streak, so three sessions at the same instant (now)
yield a streak of 3. -/
theorem GetStudyStreak_same_day_inflation :
    GetStudyStreak [0, 0, 0] 0 = 3 ∧ (3 : Nat) ≠ 1 := by
  refine ⟨by decide, by decide⟩

end LangPortal

namespace LangPortal

/-! ### Success rates (internal/models/word.go 51-72, internal/models/study.go
48-66, internal/service/dashboard.go 83-115)

Go computes the rates in IEEE 754 binary64 (`float64`). The embedding
models that arithmetic exactly, for the values these computations can
produce: every operand is a nonnegative finite double in the normal
range (counts are nonnegative `int`s, ratios lie in [2⁻⁶⁴, 2¹⁰⁶]), so a
double is represented canonically as a significand/exponent pair
`(m, e) : ℕ × ℤ` with value `m·2^e` and `m ∈ [2⁵², 2⁵³)`, or `(0, 0)`
for zero. `roundRatToF64` rounds a positive rational to 53 significant
bits with round-to-nearest, ties-to-even — the IEEE default — and the
conversion `float64(n)`, the division and the multiplication are each
the correctly rounded (exact-then-round) operation IEEE prescribes.
Overflow to infinity and subnormal underflow cannot occur in this range
and are not modelled; the fuel bound 130 of the normalization loop
covers every value in the range with margin (at most ~116 shifts). -/

/-- One normalization step on `(a, b, e)` representing the rational
`(a/b)·2^e`: double `a` while `a/b < 2⁵²`, double `b` while
`a/b ≥ 2⁵³`, else stop. -/
def normStep (s : Nat × Nat × Int) : Nat × Nat × Int :=
  if s.1 < 4503599627370496 * s.2.1 then (s.1 * 2, s.2.1, s.2.2 - 1)
  else if 9007199254740992 * s.2.1 ≤ s.1 then (s.1, s.2.1 * 2, s.2.2 + 1)
  else s

/-- Iterated normalization (fuel-bounded; `normStep` is the identity
once `a/b ∈ [2⁵², 2⁵³)`, so extra fuel is harmless). -/
def normFrac : Nat → Nat × Nat × Int → Nat × Nat × Int
  | 0, s => s
  | fuel + 1, s => normFrac fuel (normStep s)

/-- Round the positive rational `a/b` to the nearest binary64 value
(53 significant bits, ties to even): normalize `a/b` into `[2⁵², 2⁵³)`,
split into quotient and remainder, round half-to-even, and renormalize
the one carry case `2⁵³`. -/
def roundRatToF64 (a b : Nat) : Nat × Int :=
  let p := normFrac 130 (a, b, 0)
  let n := p.1 / p.2.1
  let r := p.1 % p.2.1
  let n2 :=
    if 2 * r < p.2.1 then n
    else if p.2.1 < 2 * r then n + 1
    else if n % 2 = 0 then n else n + 1
  if n2 = 9007199254740992 then (4503599627370496, p.2.2 + 1) else (n2, p.2.2)

/-- Go conversion `float64(n)` of a nonnegative integer count: exact for
`n < 2⁵³`, rounded to nearest even above. -/
def f64OfNat (n : Nat) : Nat × Int :=
  if n = 0 then (0, 0) else roundRatToF64 n 1

/-- IEEE binary64 division of nonnegative values: the exact quotient
`(m₁/m₂)·2^(e₁-e₂)`, correctly rounded. -/
def f64Div (x y : Nat × Int) : Nat × Int :=
  if x.1 = 0 || y.1 = 0 then (0, 0)
  else
    let p := roundRatToF64 x.1 y.1
    (p.1, p.2 + x.2 - y.2)

/-- IEEE binary64 multiplication of nonnegative values: the exact
product `(m₁·m₂)·2^(e₁+e₂)`, correctly rounded. -/
def f64Mul (x y : Nat × Int) : Nat × Int :=
  if x.1 = 0 || y.1 = 0 then (0, 0)
  else
    let p := roundRatToF64 (x.1 * y.1) 1
    (p.1, p.2 + x.2 + y.2)

/-- The exact rational value of a represented double. -/
def f64ToRat (x : Nat × Int) : ℚ :=
  if 0 ≤ x.2 then ((x.1 * 2 ^ x.2.toNat : Nat) : ℚ)
  else (x.1 : ℚ) / ((2 ^ (-x.2).toNat : Nat) : ℚ)

/-- Go conversion `int(f)` of a nonnegative double: truncation toward
zero, i.e. the floor, computed on the representation. -/
def f64TruncToInt (x : Nat × Int) : Int :=
  if 0 ≤ x.2 then ((x.1 * 2 ^ x.2.toNat : Nat) : Int)
  else ((x.1 / 2 ^ (-x.2).toNat : Nat) : Int)

/-- Loop body of Word.GetStudyStats: a correct review increments
`correctCount`, a wrong one increments `wrongCount`. -/
def reviewCountStep (acc : Nat × Nat) (r : WordReview) : Nat × Nat :=
  if r.correct then (acc.1 + 1, acc.2) else (acc.1, acc.2 + 1)

/-- Word.GetStudyStats (word.go 51-61): walk the word's loaded reviews
counting (correctCount, wrongCount). -/
def Word.GetStudyStats (reviews : List WordReview) : Nat × Nat :=
  reviews.foldl reviewCountStep (0, 0)

/-- Word.GetSuccessRate (word.go 63-71): `0` when there are no reviews,
otherwise the float64 evaluation of
`float64(correctCount) / float64(total) * 100` (the constant 100 is the
exact double (f64OfNat 100)); the result is read back as its exact
rational value. -/
def Word.GetSuccessRate (reviews : List WordReview) : ℚ :=
  let s := Word.GetStudyStats reviews
  let total := s.1 + s.2
  if total = 0 then 0
  else f64ToRat (f64Mul (f64Div (f64OfNat s.1) (f64OfNat total)) (f64OfNat 100))

/-- StudySession.GetStudyStats (study.go 48-57): `totalReviews` is the
length of the session's reviews, `correctReviews` counts the correct
ones. -/
def StudySession.GetStudyStats (reviews : List WordReview) : Nat × Nat :=
  (reviews.length, reviews.foldl (fun acc r => if r.correct then acc + 1 else acc) 0)

/-- StudySession.GetSuccessRate (study.go 59-66): `0` on zero reviews,
otherwise the float64 evaluation of
`float64(correctReviews) / float64(totalReviews) * 100`. -/
def StudySession.GetSuccessRate (reviews : List WordReview) : ℚ :=
  let s := StudySession.GetStudyStats reviews
  if s.1 = 0 then 0
  else f64ToRat (f64Mul (f64Div (f64OfNat s.2) (f64OfNat s.1)) (f64OfNat 100))

/-- The success-rate computation of DashboardService.GetQuickStats
(dashboard.go 96-100): `successRate := 0`, overwritten with
`int((float64(correctReviews) / float64(totalReviews)) * 100)` when
`totalReviews > 0`; `int(f)` truncates the nonnegative double toward
zero. -/
def GetQuickStatsSuccessRate (correctReviews totalReviews : Nat) : Int :=
  if 0 < totalReviews then
    f64TruncToInt (f64Mul (f64Div (f64OfNat correctReviews) (f64OfNat totalReviews))
      (f64OfNat 100))
  else 0

/-- Number of reviews marked correct, the K of the claim. -/
def countCorrect (reviews : List WordReview) : Nat :=
  (reviews.filter (fun r => r.correct)).length

/-- Number of reviews marked wrong. -/
def countWrong (reviews : List WordReview) : Nat :=
  (reviews.filter (fun r => !r.correct)).length

theorem foldl_reviewCountStep (reviews : List WordReview) (a b : Nat) :
    reviews.foldl reviewCountStep (a, b) = (a + countCorrect reviews, b + countWrong reviews) := by
  induction reviews generalizing a b with
  | nil => simp [countCorrect, countWrong]
  | cons r rest ih =>
    by_cases hr : r.correct = true <;>
      simp [reviewCountStep, countCorrect, countWrong, hr, ih, List.filter] <;> omega

theorem Word.GetStudyStats_eq (reviews : List WordReview) :
    Word.GetStudyStats reviews = (countCorrect reviews, countWrong reviews) := by
  simpa using foldl_reviewCountStep reviews 0 0

theorem countCorrect_add_countWrong (reviews : List WordReview) :
    countCorrect reviews + countWrong reviews = reviews.length := by
  induction reviews with
  | nil => simp [countCorrect, countWrong]
  | cons r rest ih =>
    by_cases hr : r.correct = true <;>
      simp [countCorrect, countWrong, hr, List.filter] at ih ⊢ <;> omega

theorem foldl_countCorrectOnly (reviews : List WordReview) (a : Nat) :
    reviews.foldl (fun acc r => if r.correct then acc + 1 else acc) a =
      a + countCorrect reviews := by
  induction reviews generalizing a with
  | nil => simp [countCorrect]
  | cons r rest ih =>
    by_cases hr : r.correct = true
    · simp [countCorrect, hr, ih, List.filter]
      omega
    · simp [countCorrect, hr, ih, List.filter]

/-- Both per-entity scopes compute, for a nonempty review list with K
correct of N total, the float64 evaluation of K/N*100. -/
theorem successRate_scopes (reviews : List WordReview) (hne : reviews ≠ []) :
    Word.GetSuccessRate reviews =
      f64ToRat (f64Mul (f64Div (f64OfNat (countCorrect reviews)) (f64OfNat reviews.length))
        (f64OfNat 100)) ∧
    StudySession.GetSuccessRate reviews =
      f64ToRat (f64Mul (f64Div (f64OfNat (countCorrect reviews)) (f64OfNat reviews.length))
        (f64OfNat 100)) := by
  have hlen : 0 < reviews.length := List.length_pos.mpr hne
  have htot := countCorrect_add_countWrong reviews
  constructor
  · rw [Word.GetSuccessRate]
    simp only [Word.GetStudyStats_eq, htot]
    rw [if_neg (by omega)]
  · rw [StudySession.GetSuccessRate, StudySession.GetStudyStats]
    simp only [foldl_countCorrectOnly, Nat.zero_add]
    rw [if_neg (by omega)]

/-- The double nearest (1/3)·100 after the two roundings, with its exact
rational value ≠ 100/3. -/
theorem f64_one_third_times_100 :
    f64Mul (f64Div (f64OfNat 1) (f64OfNat 3)) (f64OfNat 100) = (4691249611844266, -47) := by
  decide

/-- (2/4)·100 is exact in float64: both roundings leave 50. -/
theorem f64_half_times_100 :
    f64Mul (f64Div (f64OfNat 2) (f64OfNat 4)) (f64OfNat 100) = (7036874417766400, -47) := by
  decide

/-- Claim C3 counterexample: with 1 correct review of 3, none of the
scopes returns K/N*100 exactly. The whole-store quick stats truncate
the float64 rate to the int 33 ≠ 100/3, and even the word- and
session-scope float64 rates are the double 4691249611844266·2⁻⁴⁷, not
100/3. -/
theorem GetQuickStatsSuccessRate_not_exact :
    GetQuickStatsSuccessRate 1 3 = 33 ∧
    ((GetQuickStatsSuccessRate 1 3 : ℚ) ≠ (1 : ℚ) / 3 * 100) ∧
    Word.GetSuccessRate [⟨1, 1, 1, true, 0⟩, ⟨2, 1, 1, false, 0⟩, ⟨3, 1, 1, false, 0⟩] ≠
      (1 : ℚ) / 3 * 100 ∧
    StudySession.GetSuccessRate [⟨1, 1, 1, true, 0⟩, ⟨2, 1, 1, false, 0⟩, ⟨3, 1, 1, false, 0⟩] ≠
      (1 : ℚ) / 3 * 100 := by
  have h33 : GetQuickStatsSuccessRate 1 3 = 33 := by decide
  have hsc := successRate_scopes
    [⟨1, 1, 1, true, 0⟩, ⟨2, 1, 1, false, 0⟩, ⟨3, 1, 1, false, 0⟩] (by decide)
  have hcc : countCorrect [⟨1, 1, 1, true, 0⟩, ⟨2, 1, 1, false, 0⟩, ⟨3, 1, 1, false, 0⟩] = 1 := by
    decide
  have hln : ([⟨1, 1, 1, true, 0⟩, ⟨2, 1, 1, false, 0⟩, ⟨3, 1, 1, false, 0⟩] :
      List WordReview).length = 3 := rfl
  have hval : f64ToRat (f64Mul (f64Div (f64OfNat 1) (f64OfNat 3)) (f64OfNat 100)) ≠
      (1 : ℚ) / 3 * 100 := by
    rw [f64_one_third_times_100]
    norm_num [f64ToRat, show ((47 : Int)).toNat = 47 from rfl]
  refine ⟨h33, ?_, ?_, ?_⟩
  · rw [h33]
    norm_num
  · rw [hsc.1, hcc, hln]
    exact hval
  · rw [hsc.2, hcc, hln]
    exact hval

/-- Claim C3, amended: every scope with zero reviews returns success
rate 0 — no error, no NaN, no division performed. For N ≥ 1 reviews of
which K are correct, every scope computes the same float64 value of
K/N*100 — the word and session scopes return it and the whole-store
quick stats truncate it to int — and that value equals K/N*100 exactly
only where the float64 computation is exact, as in the spec's example
of 2 correct of 4 yielding 50 in every scope; not universally (1
correct of 3 yields the double 4691249611844266·2⁻⁴⁷ ≠ 100/3, and 33
after truncation). -/
theorem successRate_totality_amended :
    (∀ c : Nat, GetQuickStatsSuccessRate c 0 = 0) ∧
    Word.GetSuccessRate [] = 0 ∧
    StudySession.GetSuccessRate [] = 0 ∧
    (∀ reviews : List WordReview, reviews ≠ [] →
      Word.GetSuccessRate reviews =
        f64ToRat (f64Mul (f64Div (f64OfNat (countCorrect reviews)) (f64OfNat reviews.length))
          (f64OfNat 100)) ∧
      StudySession.GetSuccessRate reviews =
        f64ToRat (f64Mul (f64Div (f64OfNat (countCorrect reviews)) (f64OfNat reviews.length))
          (f64OfNat 100))) ∧
    (∀ c t : Nat, 0 < t →
      GetQuickStatsSuccessRate c t =
        f64TruncToInt (f64Mul (f64Div (f64OfNat c) (f64OfNat t)) (f64OfNat 100))) ∧
    Word.GetSuccessRate
      [⟨1, 1, 1, true, 0⟩, ⟨2, 1, 1, true, 0⟩, ⟨3, 1, 1, false, 0⟩, ⟨4, 1, 1, false, 0⟩] = 50 ∧
    StudySession.GetSuccessRate
      [⟨1, 1, 1, true, 0⟩, ⟨2, 1, 1, true, 0⟩, ⟨3, 1, 1, false, 0⟩, ⟨4, 1, 1, false, 0⟩] = 50 ∧
    (GetQuickStatsSuccessRate 2 4 : ℚ) = (2 : ℚ) / 4 * 100 := by
  have h50 : f64ToRat (f64Mul (f64Div (f64OfNat 2) (f64OfNat 4)) (f64OfNat 100)) = 50 := by
    rw [f64_half_times_100]
    norm_num [f64ToRat, show ((47 : Int)).toNat = 47 from rfl]
  have hl4 := successRate_scopes
    [⟨1, 1, 1, true, 0⟩, ⟨2, 1, 1, true, 0⟩, ⟨3, 1, 1, false, 0⟩, ⟨4, 1, 1, false, 0⟩]
    (by decide)
  have hcc4 : countCorrect
      [⟨1, 1, 1, true, 0⟩, ⟨2, 1, 1, true, 0⟩, ⟨3, 1, 1, false, 0⟩, ⟨4, 1, 1, false, 0⟩] = 2 := by
    decide
  have hln4 : ([⟨1, 1, 1, true, 0⟩, ⟨2, 1, 1, true, 0⟩, ⟨3, 1, 1, false, 0⟩,
      ⟨4, 1, 1, false, 0⟩] : List WordReview).length = 4 := rfl
  refine ⟨fun c => rfl, rfl, rfl, successRate_scopes, fun c t ht => ?_, ?_, ?_, ?_⟩
  · rw [GetQuickStatsSuccessRate, if_pos ht]
  · rw [hl4.1, hcc4, hln4]
    exact h50
  · rw [hl4.2, hcc4, hln4]
    exact h50
  · rw [show GetQuickStatsSuccessRate 2 4 = 50 from by decide]
    norm_num

/-- Witness for the amended C3 theorem at concrete inputs, discharging
its nonemptiness and positivity hypotheses: two reviews with one
correct at word scope, and quick stats on 1 correct of 3. -/
theorem successRate_totality_amended_witness :
    Word.GetSuccessRate [⟨1, 1, 1, true, 0⟩, ⟨2, 1, 1, false, 0⟩] =
      f64ToRat (f64Mul (f64Div (f64OfNat (countCorrect [⟨1, 1, 1, true, 0⟩, ⟨2, 1, 1, false, 0⟩]))
        (f64OfNat ([⟨1, 1, 1, true, 0⟩, ⟨2, 1, 1, false, 0⟩] : List WordReview).length))
        (f64OfNat 100)) ∧
    GetQuickStatsSuccessRate 1 3 =
      f64TruncToInt (f64Mul (f64Div (f64OfNat 1) (f64OfNat 3)) (f64OfNat 100)) :=
  ⟨(successRate_totality_amended.2.2.2.1 [⟨1, 1, 1, true, 0⟩, ⟨2, 1, 1, false, 0⟩]
      (by decide)).1,
   successRate_totality_amended.2.2.2.2.1 1 3 (by decide)⟩

end LangPortal

namespace LangPortal

/-! ### Pagination (internal/repository/repository.go 57-66, repository
List methods, internal/service/dashboard.go 187-208) -/

/-- BaseRepository.Paginate: applies `Offset((page-1)*pageSize)` and
`Limit(pageSize)` to the stably ordered result set `rows`. -/
def Paginate {α : Type} (rows : List α) (page pageSize : Nat) : List α :=
  (rows.drop ((page - 1) * pageSize)).take pageSize

/-- The `totalPages := (int(total) + params.PageSize - 1) / params.PageSize`
computation shared by every repository List method. -/
def repoTotalPages (total pageSize : Nat) : Nat := (total + pageSize - 1) / pageSize

/-- NewPaginatedResponse (dashboard.go 187-208): same formula, but clamped
with `if totalPages < 1 { totalPages = 1 }`. -/
def NewPaginatedResponseTotalPages (totalItems pageSize : Nat) : Nat :=
  let totalPages := (totalItems + pageSize - 1) / pageSize
  if totalPages < 1 then 1 else totalPages

theorem le_totalPages_mul (n p : Nat) (hp : 0 < p) : n ≤ ((n + p - 1) / p) * p := by
  have h1 : p * ((n + p - 1) / p) + (n + p - 1) % p = n + p - 1 := Nat.div_add_mod _ _
  have h2 : (n + p - 1) % p < p := Nat.mod_lt _ hp
  rw [Nat.mul_comm]
  omega

theorem repoTotalPages_eq_ceil (n p : Nat) (hp : 0 < p) :
    repoTotalPages n p = ⌈(n : ℚ) / p⌉₊ := by
  have hpq : (0 : ℚ) < p := by exact_mod_cast hp
  rw [repoTotalPages]
  apply le_antisymm
  · have hm : n ≤ ⌈(n : ℚ) / p⌉₊ * p := by
      have h1 : (n : ℚ) / p ≤ ⌈(n : ℚ) / p⌉₊ := Nat.le_ceil _
      rw [div_le_iff₀ hpq] at h1
      exact_mod_cast h1
    rw [Nat.div_le_iff_le_mul_add_pred hp, Nat.mul_comm]
    omega
  · rw [Nat.ceil_le, div_le_iff₀ hpq]
    exact_mod_cast le_totalPages_mul n p hp

/-- Claim C4 counterexample: for `total_items = 0` and `page_size = 10`
the dashboard envelope reports `total_pages = 1`, while
`ceil(total_items / pageSize) = 0`. -/
theorem NewPaginatedResponse_zero_items :
    NewPaginatedResponseTotalPages 0 10 = 1 ∧ ⌈(0 : ℚ) / 10⌉₊ = 0 := by
  constructor
  · rfl
  · norm_num

/-- Claim C4, amended: for `page ≥ 1`, `pageSize ≥ 1`, the returned items
are exactly the slice `[(page-1)*pageSize, page*pageSize)` of the ordered
result set; the repository-level `total_pages` equals
`ceil(total_items / pageSize)`; requesting `page = total_pages + 1`
returns an empty item list with the same (page-independent) totals; and
the dashboard envelope of NewPaginatedResponse instead reports
`max 1 (ceil(total_items / pageSize))`, which differs from the ceiling
only at `total_items = 0`. -/
theorem pagination_contract (α : Type) (rows : List α) (page pageSize : Nat)
    (_hpage : 1 ≤ page) (hsize : 1 ≤ pageSize) :
    (∀ i : Nat, (Paginate rows page pageSize)[i]? =
      if i < pageSize then rows[(page - 1) * pageSize + i]? else none) ∧
    repoTotalPages rows.length pageSize = ⌈(rows.length : ℚ) / pageSize⌉₊ ∧
    Paginate rows (repoTotalPages rows.length pageSize + 1) pageSize = [] ∧
    (∀ t : Nat, NewPaginatedResponseTotalPages t pageSize =
      max 1 (⌈(t : ℚ) / pageSize⌉₊)) := by
  refine ⟨?_, repoTotalPages_eq_ceil _ _ hsize, ?_, ?_⟩
  · intro i
    by_cases hi : i < pageSize
    · simp [Paginate, List.getElem?_take, hi, List.getElem?_drop]
    · simp [Paginate, List.getElem?_take, hi]
  · have hdrop : rows.length ≤ (repoTotalPages rows.length pageSize + 1 - 1) * pageSize := by
      simpa [repoTotalPages] using le_totalPages_mul rows.length pageSize hsize
    rw [Paginate, List.drop_eq_nil_of_le hdrop, List.take_nil]
  · intro t
    rw [NewPaginatedResponseTotalPages, ← repoTotalPages_eq_ceil t pageSize hsize]
    rw [repoTotalPages]
    rcases Nat.eq_zero_or_pos ((t + pageSize - 1) / pageSize) with h | h
    · simp [h]
    · rw [if_neg (by omega)]
      omega

/-- Witness for the amended C4 theorem: three rows with page size 2 give
2 total pages, and page 3 is the empty list. -/
theorem pagination_contract_witness :
    Paginate [10, 20, 30] (repoTotalPages (List.length [10, 20, 30]) 2 + 1) 2 = ([] : List Nat) :=
  (pagination_contract Nat [10, 20, 30] 2 2 (by norm_num) (by norm_num)).2.2.1

end LangPortal

namespace LangPortal

/-! ### Full reset (internal/api/handlers/settings.go 86-121)

The handler opens one transaction, deletes all rows from
`word_review_items`, `study_sessions`, `word_groups`, `groups`, `words`
in that order, rolls the transaction back if any step errors, and
commits otherwise. Storage failure of a step is modelled by a
fault-injection predicate `failsOn`. -/

/-- The five tables of the reset sequence, in the handler's order. -/
inductive ResetTable
  | wordReviewItems
  | studySessions
  | wordGroups
  | groups
  | words
deriving Repr, DecidableEq

/-- Effect of `DELETE FROM <table>` with no WHERE clause. -/
def clearTable (st : Store) : ResetTable → Store
  | .wordReviewItems => { st with reviews := [] }
  | .studySessions => { st with sessions := [] }
  | .wordGroups => { st with wordGroups := [] }
  | .groups => { st with groups := [] }
  | .words => { st with words := [] }

/-- The `tables` slice of FullReset, in dependency order. -/
def fullResetTables : List ResetTable :=
  [.wordReviewItems, .studySessions, .wordGroups, .groups, .words]

/-- The delete loop running on the transaction state: `none` when some
step errored (the handler then calls `tx.Rollback()`). -/
def fullResetLoop (failsOn : ResetTable → Bool) : Store → List ResetTable → Option Store
  | tx, [] => some tx
  | tx, t :: ts =>
    if failsOn t then none else fullResetLoop failsOn (clearTable tx t) ts

/-- SettingsHandler.FullReset: the visible database state is the
committed transaction on success and the unchanged original store after
a rollback; the Bool is the handler's success flag. -/
def FullReset (st : Store) (failsOn : ResetTable → Bool) : Bool × Store :=
  match fullResetLoop failsOn st fullResetTables with
  | none => (false, st)
  | some tx => (true, tx)

/-- The store with every table of the reset sequence empty. -/
def emptyStore : Store := ⟨[], [], [], [], []⟩

/-- Claim C5: when no step fails, FullReset empties all five tables; and
the operation is atomic: whenever any step fails (in particular when the
`groups` step does), the handler reports failure and the store is the
unchanged original, with no rows removed from any table. -/
theorem FullReset_atomic (st : Store) (failsOn : ResetTable → Bool) :
    ((∀ t, failsOn t = false) → FullReset st failsOn = (true, emptyStore)) ∧
    ((FullReset st failsOn).1 = false → (FullReset st failsOn).2 = st) ∧
    (failsOn ResetTable.groups = true → FullReset st failsOn = (false, st)) := by
  refine ⟨?_, ?_, ?_⟩
  · intro hall
    simp [FullReset, fullResetTables, fullResetLoop, hall, clearTable, emptyStore]
  · intro hfail
    rw [FullReset] at hfail ⊢
    rcases h : fullResetLoop failsOn st fullResetTables with _ | tx
    · simp
    · rw [h] at hfail
      simp at hfail
  · intro hg
    rw [FullReset]
    rcases h1 : failsOn ResetTable.wordReviewItems with _ | _ <;>
      rcases h2 : failsOn ResetTable.studySessions with _ | _ <;>
        rcases h3 : failsOn ResetTable.wordGroups with _ | _ <;>
          simp [fullResetTables, fullResetLoop, h1, h2, h3, hg]

/-- Witness for the C5 theorem: a one-row-per-table store, a fault on the
`groups` delete step; the reset reports failure and removes nothing. -/
theorem FullReset_atomic_witness :
    FullReset
      ⟨[⟨1, "w", "w", "w", ["n"]⟩], [⟨1, "g"⟩], [⟨1, 1⟩], [⟨1, 1, 1, 0⟩], [⟨1, 1, 1, true, 0⟩]⟩
      (fun t => t == ResetTable.groups) =
    (false, ⟨[⟨1, "w", "w", "w", ["n"]⟩], [⟨1, "g"⟩], [⟨1, 1⟩], [⟨1, 1, 1, 0⟩],
      [⟨1, 1, 1, true, 0⟩]⟩) :=
  (FullReset_atomic
    ⟨[⟨1, "w", "w", "w", ["n"]⟩], [⟨1, "g"⟩], [⟨1, 1⟩], [⟨1, 1, 1, 0⟩], [⟨1, 1, 1, true, 0⟩]⟩
    (fun t => t == ResetTable.groups)).2.2 (by decide)

end LangPortal

namespace LangPortal

/-! ### AddWordReview (internal/service/study.go and src part_017 lines
242-266; repository magefile.go 472-478; validator tags in
internal/models/study.go 68-87)

The go-playground validator tag `validate:"required"` fails on the zero
value of the field's type: `0` for `uint` fields and `false` for the
`Correct bool` field. -/

/-- Service error codes (internal/service error taxonomy). -/
inductive ErrCode
  | notFound
  | invalidInput
  | internal
deriving Repr, DecidableEq

/-- StudyRepository.GetStudySessionByID lookup outcome: `none` models
gorm.ErrRecordNotFound mapped to ErrNotFound. -/
def GetStudySessionByID (st : Store) (id : Nat) : Option StudySession :=
  st.sessions.find? (fun s => s.id == id)

/-- WordRepository.GetByID (word.go 28-37): primary-key lookup, `none`
models ErrNotFound. -/
def WordGetByID (st : Store) (id : Nat) : Option Word :=
  st.words.find? (fun w => w.id == id)

/-- WordReview.Validate (study.go 68-87): `validate.Struct` with
`required` on ID, WordID, StudySessionID (nonzero uints) and on Correct,
where `required` on a bool demands the non-zero value `true`. -/
def WordReviewValidate (r : WordReview) : Bool :=
  r.id != 0 && r.wordId != 0 && r.studySessionId != 0 && r.correct

/-- StudyRepository.AddWordReview (magefile.go 472-478): returns
ErrInvalidInput when validation fails, otherwise inserts the row. -/
def StudyRepositoryAddWordReview (st : Store) (r : WordReview) : Option ErrCode × Store :=
  if WordReviewValidate r then (none, { st with reviews := st.reviews ++ [r] })
  else (some ErrCode.invalidInput, st)

/-- StudyService.AddWordReview (part_017 242-266): verify the session
exists (NotFound otherwise), verify the word exists (NotFound
otherwise), set the review's StudySessionID, call the repository, and
map a repository error to an Internal service error. -/
def StudyServiceAddWordReview (st : Store) (sessionID : Nat) (r : WordReview) :
    Option ErrCode × Store :=
  match GetStudySessionByID st sessionID with
  | none => (some ErrCode.notFound, st)
  | some _ =>
    match WordGetByID st r.wordId with
    | none => (some ErrCode.notFound, st)
    | some _ =>
      let r2 := { r with studySessionId := sessionID }
      match StudyRepositoryAddWordReview st r2 with
      | (some _, st2) => (some ErrCode.internal, st2)
      | (none, st2) => (none, st2)

/-- Claim C6: AddWordReview on a nonexistent study session or a
nonexistent word fails with NotFound and leaves the store unchanged: no
review row is inserted. -/
theorem AddWordReview_referential_guard (st : Store) (sessionID : Nat) (r : WordReview)
    (h : GetStudySessionByID st sessionID = none ∨ WordGetByID st r.wordId = none) :
    StudyServiceAddWordReview st sessionID r = (some ErrCode.notFound, st) := by
  rcases h with h | h
  · rw [StudyServiceAddWordReview, h]
  · rw [StudyServiceAddWordReview]
    rcases hs : GetStudySessionByID st sessionID with _ | s
    · rfl
    · rw [h]

/-- Witness for the C6 theorem: an empty store has neither session 1 nor
word 1, and the review is rejected with NotFound, store unchanged. -/
theorem AddWordReview_referential_guard_witness :
    StudyServiceAddWordReview emptyStore 1 ⟨1, 1, 1, true, 0⟩ =
      (some ErrCode.notFound, emptyStore) :=
  AddWordReview_referential_guard emptyStore 1 ⟨1, 1, 1, true, 0⟩ (Or.inl (by decide))

/-- A store holding word 1, group 1, a word-group link and study session
1, with no reviews yet: the setting of the C7 and C9 failing inputs. -/
def sessionStore : Store :=
  ⟨[⟨1, "食べる", "taberu", "to eat", ["verb"]⟩], [⟨1, "Basic Verbs"⟩], [⟨1, 1⟩],
    [⟨1, 1, 1, 0⟩], []⟩

/-- Claim C7: the spec says AddWordReview succeeds for both values of
`correct` on an existing session and word, storing `correct` verbatim.
In the code `validate:"required"` rejects the zero values, so a review
with `correct=false` (even with a nonzero ID) is rejected as
ErrInvalidInput by the repository, and a freshly bound review (ID 0, as
produced by the JSON binding before the database assigns a key) is
rejected even with `correct=true`; the service surfaces both as Internal
errors and no row is ever inserted. -/
theorem AddWordReview_correct_false_rejected :
    GetStudySessionByID sessionStore 1 = some ⟨1, 1, 1, 0⟩ ∧
    WordGetByID sessionStore 1 = some ⟨1, "食べる", "taberu", "to eat", ["verb"]⟩ ∧
    StudyRepositoryAddWordReview sessionStore ⟨1, 1, 1, false, 0⟩ =
      (some ErrCode.invalidInput, sessionStore) ∧
    StudyServiceAddWordReview sessionStore 1 ⟨2, 1, 1, false, 0⟩ =
      (some ErrCode.internal, sessionStore) ∧
    StudyServiceAddWordReview sessionStore 1 ⟨0, 1, 1, true, 0⟩ =
      (some ErrCode.internal, sessionStore) := by
  refine ⟨by decide, by decide, by decide, by decide, by decide⟩

end LangPortal

namespace LangPortal

/-! ### Word delete and group delete (internal/repository/word.go 89-102,
internal/repository/group.go 94-104)

GORM maps `tx.Where(cond, v).Delete(&Model{})` to
`DELETE FROM <model table> WHERE cond`; a WHERE clause naming a column
the table does not have fails at statement preparation ("no such
column"), independently of the rows present. The embedding checks the
WHERE column against the table's schema (db/migrations/00001_init.sql)
before filtering rows, and `numColumn` evaluates the numeric key columns
a WHERE comparison against an integer can refer to. -/

/-- SQL preparation/execution errors surfaced to WithTransaction. -/
inductive SqlErr
  | noSuchColumn
deriving Repr, DecidableEq

/-- Columns of the `words` table. -/
def wordsColumns : List String := ["id", "japanese", "romaji", "english", "parts", "created_at"]

/-- Columns of the `word_review_items` table. -/
def wordReviewItemsColumns : List String :=
  ["id", "word_id", "study_session_id", "correct", "created_at"]

/-- Columns of the `word_groups` table. -/
def wordGroupsColumns : List String := ["id", "word_id", "group_id", "created_at"]

/-- Columns of the `groups` table. -/
def groupsColumns : List String := ["id", "name", "created_at"]

/-- Numeric key columns of a `words` row. -/
def wordNumColumn (w : Word) : String → Option Nat
  | "id" => some w.id
  | _ => none

/-- Numeric key columns of a `word_review_items` row. -/
def reviewNumColumn (r : WordReview) : String → Option Nat
  | "id" => some r.id
  | "word_id" => some r.wordId
  | "study_session_id" => some r.studySessionId
  | _ => none

/-- Numeric key columns of a `word_groups` row (repository.WordGroup has
the two key fields). -/
def wordGroupNumColumn (wg : WordGroup) : String → Option Nat
  | "word_id" => some wg.wordId
  | "group_id" => some wg.groupId
  | _ => none

/-- Numeric key columns of a `groups` row. -/
def groupNumColumn (g : Group) : String → Option Nat
  | "id" => some g.id
  | _ => none

/-- `DELETE FROM words WHERE <col> = <v>`. -/
def sqlDeleteWords (st : Store) (col : String) (v : Nat) : Except SqlErr Store :=
  if wordsColumns.contains col then
    Except.ok { st with words := st.words.filter (fun w => !(wordNumColumn w col == some v)) }
  else Except.error SqlErr.noSuchColumn

/-- `DELETE FROM word_review_items WHERE <col> = <v>`. -/
def sqlDeleteWordReviews (st : Store) (col : String) (v : Nat) : Except SqlErr Store :=
  if wordReviewItemsColumns.contains col then
    Except.ok
      { st with reviews := st.reviews.filter (fun r => !(reviewNumColumn r col == some v)) }
  else Except.error SqlErr.noSuchColumn

/-- `DELETE FROM word_groups WHERE <col> = <v>`. -/
def sqlDeleteWordGroups (st : Store) (col : String) (v : Nat) : Except SqlErr Store :=
  if wordGroupsColumns.contains col then
    Except.ok
      { st with
        wordGroups := st.wordGroups.filter (fun wg => !(wordGroupNumColumn wg col == some v)) }
  else Except.error SqlErr.noSuchColumn

/-- `DELETE FROM groups WHERE <col> = <v>`. -/
def sqlDeleteGroups (st : Store) (col : String) (v : Nat) : Except SqlErr Store :=
  if groupsColumns.contains col then
    Except.ok { st with groups := st.groups.filter (fun g => !(groupNumColumn g col == some v)) }
  else Except.error SqlErr.noSuchColumn

/-- WordRepository.Delete (word.go 89-102), a WithTransaction of three
steps: `tx.Where("word_id = ?", id).Delete(&models.Word{})` — note the
model is Word, so the statement runs against the `words` table — then
`tx.Where("word_id = ?", id).Delete(&models.WordReview{})`, then
`tx.Delete(&models.Word{}, id)`. The first failing step rolls the whole
transaction back to the original store. -/
def WordRepositoryDelete (st : Store) (id : Nat) : Option SqlErr × Store :=
  match sqlDeleteWords st "word_id" id with
  | Except.error e => (some e, st)
  | Except.ok st1 =>
    match sqlDeleteWordReviews st1 "word_id" id with
    | Except.error e => (some e, st)
    | Except.ok st2 =>
      match sqlDeleteWords st2 "id" id with
      | Except.error e => (some e, st)
      | Except.ok st3 => (none, st3)

/-- GroupRepository.Delete (group.go 94-104), a WithTransaction of two
steps: `tx.Where("group_id = ?", id).Delete(&WordGroup{})` then
`tx.Delete(&models.Group{}, id)`. -/
def GroupRepositoryDelete (st : Store) (id : Nat) : Option SqlErr × Store :=
  match sqlDeleteWordGroups st "group_id" id with
  | Except.error e => (some e, st)
  | Except.ok st1 =>
    match sqlDeleteGroups st1 "id" id with
    | Except.error e => (some e, st)
    | Except.ok st2 => (none, st2)

end LangPortal

namespace LangPortal

/-- GroupRepository.GetByID lookup, `none` models ErrNotFound. -/
def GroupGetByID (st : Store) (id : Nat) : Option Group :=
  st.groups.find? (fun g => g.id == id)

/-- StudyRepository.GetStudyStats (magefile.go 526-541): total session
count, total review count, correct review count, each a fresh count over
the stored rows. -/
def StudyRepositoryGetStudyStats (st : Store) : Nat × Nat × Nat :=
  (st.sessions.length, st.reviews.length, (st.reviews.filter (fun r => r.correct)).length)

/-- StudyRepository.GetActiveGroups (magefile.go 580-587): count of
distinct `group_id` values among the study sessions. -/
def GetActiveGroups (st : Store) : Nat :=
  ((st.sessions.map (fun s => s.groupId)).dedup).length

/-- The sessionStore after one review of word 1 has been stored. -/
def reviewedStore : Store :=
  ⟨[⟨1, "食べる", "taberu", "to eat", ["verb"]⟩], [⟨1, "Basic Verbs"⟩], [⟨1, 1⟩],
    [⟨1, 1, 1, 0⟩], [⟨1, 1, 1, true, 0⟩]⟩

/-- Claim C9: the spec says deleting a word removes the word row, its
word-group join rows and its reviews, after which GetByID is NotFound.
In the code the first transaction step passes `&models.Word{}` instead
of the join-table model, so it runs `DELETE FROM words WHERE word_id = ?`
against the `words` table, which has no `word_id` column: the statement
fails, the transaction rolls back, and Delete always returns an error
with the store unchanged — the word is still found, its join row and its
review rows all remain. (No step mentions `word_groups` at all.) -/
theorem WordRepositoryDelete_no_such_column :
    (∀ (st : Store) (id : Nat), WordRepositoryDelete st id = (some SqlErr.noSuchColumn, st)) ∧
    WordGetByID (WordRepositoryDelete reviewedStore 1).2 1 ≠ none ∧
    ((WordRepositoryDelete reviewedStore 1).2).wordGroups = [⟨1, 1⟩] ∧
    ((WordRepositoryDelete reviewedStore 1).2).reviews.filter (fun r => r.wordId == 1) ≠ [] := by
  have hall : ∀ (st : Store) (id : Nat),
      WordRepositoryDelete st id = (some SqlErr.noSuchColumn, st) := by
    intro st id
    have h : sqlDeleteWords st "word_id" id = Except.error SqlErr.noSuchColumn := by
      rw [sqlDeleteWords, if_neg]
      decide
    simp only [WordRepositoryDelete, h]
  refine ⟨hall, ?_, ?_, ?_⟩
  · rw [hall reviewedStore 1]
    decide
  · rw [hall reviewedStore 1]
    rfl
  · rw [hall reviewedStore 1]
    decide

/-- Claim C10: GroupRepository.Delete removes only the group row and its
word-group join rows; the group's study sessions and their reviews are
untouched, GetStudyStats and GetActiveGroups are unchanged (the deleted
group's id still counts as a distinct active group through its
sessions), and the group itself is no longer found. -/
theorem GroupRepositoryDelete_frame (st : Store) (id : Nat) :
    ((GroupRepositoryDelete st id).2).sessions = st.sessions ∧
    ((GroupRepositoryDelete st id).2).reviews = st.reviews ∧
    ((GroupRepositoryDelete st id).2).words = st.words ∧
    StudyRepositoryGetStudyStats (GroupRepositoryDelete st id).2 =
      StudyRepositoryGetStudyStats st ∧
    GetActiveGroups (GroupRepositoryDelete st id).2 = GetActiveGroups st ∧
    GroupGetByID (GroupRepositoryDelete st id).2 id = none := by
  have h1 : sqlDeleteWordGroups st "group_id" id =
      Except.ok
        { st with
          wordGroups :=
            st.wordGroups.filter (fun wg => !(wordGroupNumColumn wg "group_id" == some id)) } := by
    rw [sqlDeleteWordGroups, if_pos]
    decide
  have hdel : GroupRepositoryDelete st id =
      (none,
        { st with
          wordGroups :=
            st.wordGroups.filter (fun wg => !(wordGroupNumColumn wg "group_id" == some id)),
          groups := st.groups.filter (fun g => !(groupNumColumn g "id" == some id)) }) := by
    have h2 : sqlDeleteGroups
        { st with
          wordGroups :=
            st.wordGroups.filter (fun wg => !(wordGroupNumColumn wg "group_id" == some id)) }
        "id" id =
        Except.ok
          { st with
            wordGroups :=
              st.wordGroups.filter (fun wg => !(wordGroupNumColumn wg "group_id" == some id)),
            groups := st.groups.filter (fun g => !(groupNumColumn g "id" == some id)) } := by
      rw [sqlDeleteGroups, if_pos]
      decide
    simp only [GroupRepositoryDelete, h1, h2]
  rw [hdel]
  refine ⟨rfl, rfl, rfl, rfl, rfl, ?_⟩
  rw [GroupGetByID]
  rw [List.find?_eq_none]
  intro g hg
  have hmem := (List.mem_filter.mp hg).2
  simp only [groupNumColumn] at hmem
  simp only [beq_iff_eq]
  intro heq
  simp [heq] at hmem

end LangPortal
